import Mathlib

/-!
Verification of the transaction store and aggregation ("insight") logic of the
Personal Finance Tracker (`src/app.py`, class `FinanceTrackerApp`).

The program keeps an insertion-ordered list of transaction records in memory
(`self.transactions`), persists it wholesale to a single JSON file on every
successful add (`save_data`), and recomputes filtered listings, summary totals,
category breakdowns, monthly trends and budget-vs-actual comparisons from the
in-memory list on every render.  We embed the record type and each of those
computations as executable Lean definitions and prove the specified properties.
-/

/-- A calendar date, the embedding of the ISO-8601 `YYYY-MM-DD` strings stored
in the `date` field (`date.strftime("%Y-%m-%d")`, app.py line 45) and parsed
back by `pd.to_datetime`. -/
structure Date where
  year : Nat
  month : Nat
  day : Nat
deriving DecidableEq, Repr

/-- Comparison of dates, the order `pd.to_datetime` induces on the parsed
`YYYY-MM-DD` values: lexicographic on (year, month, day). -/
def Date.le (a b : Date) : Prop :=
  a.year < b.year ∨
    (a.year = b.year ∧ (a.month < b.month ∨ (a.month = b.month ∧ a.day ≤ b.day)))

instance : DecidableRel Date.le := fun a b => by
  unfold Date.le; infer_instance

theorem Date.le_refl (a : Date) : Date.le a a := by
  unfold Date.le; omega

theorem Date.le_total (a b : Date) : Date.le a b ∨ Date.le b a := by
  unfold Date.le; omega

theorem Date.le_trans {a b c : Date} (h1 : Date.le a b) (h2 : Date.le b c) :
    Date.le a c := by
  unfold Date.le at *; omega

/-- The fixed category enumeration offered by the add-transaction selectbox
(app.py lines 36-39). -/
inductive Category where
  | Income
  | Housing
  | Food
  | Transportation
  | Utilities
  | Entertainment
  | Healthcare
  | Other
deriving DecidableEq, Repr

/-- The list of categories exactly as passed to `st.selectbox` (lines 36-39). -/
def allCategories : List Category :=
  [Category.Income, Category.Housing, Category.Food, Category.Transportation,
   Category.Utilities, Category.Entertainment, Category.Healthcare, Category.Other]

theorem mem_allCategories (c : Category) : c ∈ allCategories := by
  cases c <;> simp [allCategories]

/-- A transaction record: the dict built at app.py lines 44-49.  Amounts are
decimal values entered through `st.number_input`; we embed them as rationals. -/
structure Transaction where
  date : Date
  amount : ℚ
  category : Category
  description : String
deriving DecidableEq, Repr

/-- The state of one `FinanceTrackerApp` process together with the backing
file `transactions.json`: `transactions` is the in-memory list, `file` is the
persisted content (`none` when the file does not exist). -/
structure AppState where
  transactions : List Transaction
  file : Option (List Transaction)
deriving DecidableEq, Repr

/-- Embedding of `load_data` (app.py lines 15-20): if the file exists parse it, else start
with the empty list. -/
def load_data (file : Option (List Transaction)) : List Transaction :=
  file.getD []

/-- Embedding of `save_data` (app.py lines 22-24): overwrite the whole file with the
in-memory list. -/
def save_data (ts : List Transaction) : Option (List Transaction) :=
  some ts

/-- The add operation (`_render_add_transaction`, app.py lines 42-54): if
`amount > 0 and description` (Python truthiness: the description string is
non-empty) then append the record and persist the whole list, reporting
success; otherwise report a validation error and change nothing.  Returns the
new state and whether the add succeeded. -/
def add (s : AppState) (t : Transaction) : AppState × Bool :=
  if 0 < t.amount ∧ t.description ≠ "" then
    ({ transactions := s.transactions ++ [t],
       file := save_data (s.transactions ++ [t]) }, true)
  else
    (s, false)

/-- Embedding of `all()`: the full in-memory sequence, insertion order preserved (the
views read `self.transactions` directly). -/
def all (s : AppState) : List Transaction :=
  s.transactions

/-- The states a `FinanceTrackerApp` process (and its backing file) can reach:
start with no file (`load_data` then yields `[]`), perform adds, or restart
the process (a new `FinanceTrackerApp.__init__` re-runs `load_data` on the
current file). -/
inductive Reachable : AppState → Prop
  | init : Reachable ⟨[], none⟩
  | step (s : AppState) (t : Transaction) : Reachable s → Reachable (add s t).1
  | reload (s : AppState) : Reachable s → Reachable ⟨load_data s.file, s.file⟩

/-- In every reachable state, re-parsing the persisted file yields exactly the
in-memory sequence. -/
theorem reachable_file_sync (s : AppState) (h : Reachable s) :
    load_data s.file = s.transactions := by
  induction h with
  | init => rfl
  | step s t _ ih =>
      unfold add
      by_cases hv : 0 < t.amount ∧ t.description ≠ ""
      · simp [hv, save_data, load_data]
      · simpa [hv] using ih
  | reload s _ _ => rfl

/-- Validity of a record at the add boundary: `amount > 0 and description`
(app.py line 43). -/
def validRecord (t : Transaction) : Prop :=
  0 < t.amount ∧ t.description ≠ ""

instance : DecidablePred validRecord := fun t => by
  unfold validRecord; infer_instance

/-- C1: Adding a valid transaction reports success, appends it as the last
element of `all()`, persists the whole sequence, and reloading the persisted
file yields the same sequence as the in-memory one. -/
theorem add_valid_roundtrip (s : AppState) (t : Transaction)
    (hA : 0 < t.amount) (hD : t.description ≠ "") :
    (add s t).2 = true ∧
    all (add s t).1 = all s ++ [t] ∧
    (all (add s t).1).getLast? = some t ∧
    (add s t).1.file = save_data (all (add s t).1) ∧
    load_data (add s t).1.file = all (add s t).1 := by
  unfold add all save_data load_data
  simp [hA, hD]

/-- Witness for C1 at a concrete state and transaction. -/
theorem add_valid_roundtrip_witness :
    (0 : ℚ) < 42 ∧ ("Groceries" : String) ≠ "" ∧
    ((add ⟨[], none⟩ ⟨⟨2024, 1, 15⟩, 42, Category.Food, "Groceries"⟩).2 = true ∧
      all (add ⟨[], none⟩ ⟨⟨2024, 1, 15⟩, 42, Category.Food, "Groceries"⟩).1 =
        all ⟨[], none⟩ ++ [⟨⟨2024, 1, 15⟩, 42, Category.Food, "Groceries"⟩] ∧
      (all (add ⟨[], none⟩ ⟨⟨2024, 1, 15⟩, 42, Category.Food, "Groceries"⟩).1).getLast? =
        some ⟨⟨2024, 1, 15⟩, 42, Category.Food, "Groceries"⟩ ∧
      (add ⟨[], none⟩ ⟨⟨2024, 1, 15⟩, 42, Category.Food, "Groceries"⟩).1.file =
        save_data (all (add ⟨[], none⟩ ⟨⟨2024, 1, 15⟩, 42, Category.Food, "Groceries"⟩).1) ∧
      load_data (add ⟨[], none⟩ ⟨⟨2024, 1, 15⟩, 42, Category.Food, "Groceries"⟩).1.file =
        all (add ⟨[], none⟩ ⟨⟨2024, 1, 15⟩, 42, Category.Food, "Groceries"⟩).1) :=
  ⟨by decide, by decide,
    add_valid_roundtrip ⟨[], none⟩ ⟨⟨2024, 1, 15⟩, 42, Category.Food, "Groceries"⟩
      (by decide) (by decide)⟩

/-- C2: Adding an invalid transaction (non-positive amount or empty
description) reports a validation failure and leaves both the in-memory
sequence and the persisted file unchanged. -/
theorem add_invalid_unchanged (s : AppState) (t : Transaction)
    (h : t.amount ≤ 0 ∨ t.description = "") :
    (add s t).2 = false ∧ all (add s t).1 = all s ∧ (add s t).1.file = s.file := by
  have hv : ¬ (0 < t.amount ∧ t.description ≠ "") := by
    rcases h with h | h
    · exact fun hc => absurd hc.1 (not_lt.mpr h)
    · exact fun hc => hc.2 h
  unfold add all
  simp [hv]

/-- Witness for C2 at a concrete state and transaction (amount 0). -/
theorem add_invalid_unchanged_witness :
    ((0 : ℚ) ≤ 0 ∨ ("Rent" : String) = "") ∧
    ((add ⟨[], none⟩ ⟨⟨2024, 2, 1⟩, 0, Category.Housing, "Rent"⟩).2 = false ∧
      all (add ⟨[], none⟩ ⟨⟨2024, 2, 1⟩, 0, Category.Housing, "Rent"⟩).1 = all ⟨[], none⟩ ∧
      (add ⟨[], none⟩ ⟨⟨2024, 2, 1⟩, 0, Category.Housing, "Rent"⟩).1.file =
        (⟨[], none⟩ : AppState).file) :=
  ⟨Or.inl (by decide),
    add_invalid_unchanged ⟨[], none⟩ ⟨⟨2024, 2, 1⟩, 0, Category.Housing, "Rent"⟩
      (Or.inl (by decide))⟩

/-- C9: A whitespace-only description such as `" "` is a non-empty string,
hence truthy in Python, so add accepts it: validation rejects only the
exactly-empty description. -/
theorem whitespace_description_accepted :
    (add ⟨[], none⟩ ⟨⟨2024, 1, 15⟩, 5, Category.Food, " "⟩).2 = true ∧
    all (add ⟨[], none⟩ ⟨⟨2024, 1, 15⟩, 5, Category.Food, " "⟩).1 =
      [⟨⟨2024, 1, 15⟩, 5, Category.Food, " "⟩] := by
  decide

/-- Embedding of `df['amount'].sum()` over a list of records. -/
def sumAmounts (ts : List Transaction) : ℚ :=
  (ts.map Transaction.amount).sum

/-- Embedding of `total_income` (app.py line 108): sum of amounts where category = Income. -/
def total_income (ts : List Transaction) : ℚ :=
  sumAmounts (ts.filter (fun t => t.category = Category.Income))

/-- Embedding of `total_expenses` (app.py line 112): sum of amounts where category is not
Income. -/
def total_expenses (ts : List Transaction) : ℚ :=
  sumAmounts (ts.filter (fun t => t.category ≠ Category.Income))

/-- Embedding of `net_savings` (app.py line 116). -/
def net_savings (ts : List Transaction) : ℚ :=
  total_income ts - total_expenses ts

/-- C3: For every collection, `net_savings = total_income -
total_expenses`, and on the empty collection all three totals are zero (the
aggregations are total functions: no error on the empty collection). -/
theorem summary_totals_spec :
    (∀ ts : List Transaction, net_savings ts = total_income ts - total_expenses ts) ∧
    total_income ([] : List Transaction) = 0 ∧
    total_expenses ([] : List Transaction) = 0 ∧
    net_savings ([] : List Transaction) = 0 := by
  refine ⟨fun ts => rfl, rfl, rfl, ?_⟩
  simp [net_savings, total_income, total_expenses, sumAmounts]

/-- Embedding of `expenses_by_category` (app.py line 120):
`df[df['category'] != 'Income'].groupby('category')['amount'].sum()`.
The group keys are the distinct categories occurring among the non-Income
rows (groupby emits no group for an absent key); each key maps to the sum of
the matching amounts. -/
def expenses_by_category (ts : List Transaction) : List (Category × ℚ) :=
  (((ts.filter (fun t => t.category ≠ Category.Income)).map Transaction.category).dedup).map
    (fun c =>
      (c, sumAmounts ((ts.filter (fun t => t.category ≠ Category.Income)).filter
        (fun t => t.category = c))))

/-- C6: The category breakdown has no Income entry and no entry for a
category with zero matching transactions, and each entry's value is the sum
of the non-Income amounts of that category. -/
theorem breakdown_spec (ts : List Transaction) (p : Category × ℚ)
    (hp : p ∈ expenses_by_category ts) :
    p.1 ≠ Category.Income ∧
    (∃ t ∈ ts, t.category = p.1 ∧ t.category ≠ Category.Income) ∧
    p.2 = sumAmounts (ts.filter (fun t => t.category ≠ Category.Income ∧ t.category = p.1)) := by
  unfold expenses_by_category at hp
  rcases List.mem_map.mp hp with ⟨c, hc, hpc⟩
  rcases List.mem_map.mp (List.mem_dedup.mp hc) with ⟨t, ht, htc⟩
  have htf := List.mem_filter.mp ht
  have hne : t.category ≠ Category.Income := by simpa using htf.2
  subst hpc
  refine ⟨fun hEq => hne (htc.trans hEq), ⟨t, htf.1, htc, hne⟩, ?_⟩
  simp only [List.filter_filter]
  refine congrArg sumAmounts (List.filter_congr ?_)
  intro a _
  by_cases h1 : a.category = c <;> by_cases h2 : a.category = Category.Income <;>
    simp [h1, h2]

/-- Witness for C6 at a concrete collection with one expense. -/
theorem breakdown_spec_witness :
    ((Category.Food, (200 : ℚ)) ∈
        expenses_by_category [⟨⟨2024, 3, 5⟩, 200, Category.Food, "Groceries"⟩]) ∧
    ((Category.Food, (200 : ℚ)).1 ≠ Category.Income ∧
      (∃ t ∈ [⟨⟨2024, 3, 5⟩, 200, Category.Food, "Groceries"⟩],
        Transaction.category t = (Category.Food, (200 : ℚ)).1 ∧
          Transaction.category t ≠ Category.Income) ∧
      (Category.Food, (200 : ℚ)).2 =
        sumAmounts (List.filter
          (fun t => decide (t.category ≠ Category.Income ∧ t.category = (Category.Food, (200 : ℚ)).1))
          [⟨⟨2024, 3, 5⟩, 200, Category.Food, "Groceries"⟩])) :=
  ⟨by simp [expenses_by_category, sumAmounts, List.dedup],
    breakdown_spec [⟨⟨2024, 3, 5⟩, 200, Category.Food, "Groceries"⟩]
      (Category.Food, (200 : ℚ))
      (by simp [expenses_by_category, sumAmounts, List.dedup])⟩

/-- The month key of a date: the calendar month counted linearly
(`year * 12 + (month - 1)`), the embedding of the year+month grouping key used
by `resample('M')` and by `strftime("%Y-%m")`. -/
def monthIdx (d : Date) : Nat :=
  d.year * 12 + (d.month - 1)

/-- The month keys of a list of records. -/
def monthsOf (ts : List Transaction) : List Nat :=
  ts.map (fun t => monthIdx t.date)

/-- The earliest month key among the records (0 on the empty list, never used
there: the insights view returns early when there are no transactions). -/
def minMonth (ts : List Transaction) : Nat :=
  match monthsOf ts with
  | [] => 0
  | x :: xs => xs.foldl min x

/-- The latest month key among the records. -/
def maxMonth (ts : List Transaction) : Nat :=
  match monthsOf ts with
  | [] => 0
  | x :: xs => xs.foldl max x

/-- The total amount of the records falling in month `m` (all categories,
Income included — `resample('M')['amount'].sum()` does not filter). -/
def bucketTotal (ts : List Transaction) (m : Nat) : ℚ :=
  sumAmounts (ts.filter (fun t => monthIdx t.date = m))

/-- Embedding of `monthly_expenses` (app.py line 129):
`df.set_index('date').resample('M')['amount'].sum()` — one bucket per calendar
month from the earliest to the latest transaction month, in chronological
order, each holding the total amount of that month (0 for months with no
transactions). -/
def monthly_expenses (ts : List Transaction) : List (Nat × ℚ) :=
  if ts = [] then []
  else
    (List.range (maxMonth ts - minMonth ts + 1)).map
      (fun i => (minMonth ts + i, bucketTotal ts (minMonth ts + i)))

theorem foldl_min_le_init (xs : List Nat) (a : Nat) : xs.foldl min a ≤ a := by
  induction xs generalizing a with
  | nil => simp
  | cons x xs ih => exact le_trans (ih (min a x)) (min_le_left a x)

theorem foldl_min_le_mem (xs : List Nat) (a y : Nat) (hy : y ∈ xs) :
    xs.foldl min a ≤ y := by
  induction xs generalizing a with
  | nil => cases hy
  | cons x xs ih =>
    rcases List.mem_cons.mp hy with rfl | h
    · exact le_trans (foldl_min_le_init xs (min a y)) (min_le_right a y)
    · exact ih (min a x) h

theorem init_le_foldl_max (xs : List Nat) (a : Nat) : a ≤ xs.foldl max a := by
  induction xs generalizing a with
  | nil => simp
  | cons x xs ih => exact le_trans (le_max_left a x) (ih (max a x))

theorem mem_le_foldl_max (xs : List Nat) (a y : Nat) (hy : y ∈ xs) :
    y ≤ xs.foldl max a := by
  induction xs generalizing a with
  | nil => cases hy
  | cons x xs ih =>
    rcases List.mem_cons.mp hy with rfl | h
    · exact le_trans (le_max_right a y) (init_le_foldl_max xs (max a y))
    · exact ih (max a x) h

theorem minMonth_le_of_mem (ts : List Transaction) (t : Transaction) (ht : t ∈ ts) :
    minMonth ts ≤ monthIdx t.date := by
  have hm : monthIdx t.date ∈ monthsOf ts :=
    List.mem_map.mpr ⟨t, ht, rfl⟩
  unfold minMonth
  cases hmo : monthsOf ts with
  | nil => rw [hmo] at hm; cases hm
  | cons x xs =>
    rw [hmo] at hm
    rcases List.mem_cons.mp hm with hx | hx
    · subst hx; exact foldl_min_le_init xs _
    · exact foldl_min_le_mem xs x _ hx

theorem le_maxMonth_of_mem (ts : List Transaction) (t : Transaction) (ht : t ∈ ts) :
    monthIdx t.date ≤ maxMonth ts := by
  have hm : monthIdx t.date ∈ monthsOf ts :=
    List.mem_map.mpr ⟨t, ht, rfl⟩
  unfold maxMonth
  cases hmo : monthsOf ts with
  | nil => rw [hmo] at hm; cases hm
  | cons x xs =>
    rw [hmo] at hm
    rcases List.mem_cons.mp hm with hx | hx
    · subst hx; exact init_le_foldl_max xs _
    · exact mem_le_foldl_max xs x _ hx

/-- C4: For a non-empty collection the monthly trend is chronologically
sorted (strictly increasing month keys) and every bucket's total is the sum of
the amounts of all transactions (Income included) whose date falls in that
calendar month. -/
theorem monthly_trend_spec (ts : List Transaction) (h : ts ≠ []) :
    ((monthly_expenses ts).map Prod.fst).Pairwise (· < ·) ∧
    ∀ p ∈ monthly_expenses ts,
      p.2 = sumAmounts (ts.filter (fun t => monthIdx t.date = p.1)) := by
  constructor
  · unfold monthly_expenses
    rw [if_neg h, List.map_map]
    refine List.Pairwise.map _ (fun a b hab => ?_) (List.pairwise_lt_range _)
    simpa using hab
  · intro p hp
    unfold monthly_expenses at hp
    rw [if_neg h] at hp
    rcases List.mem_map.mp hp with ⟨i, _, hip⟩
    rw [← hip]
    rfl

/-- Witness for C4 on a two-transaction collection spanning three months. -/
theorem monthly_trend_spec_witness :
    ([⟨⟨2024, 1, 10⟩, 100, Category.Income, "Pay"⟩,
      ⟨⟨2024, 3, 5⟩, 200, Category.Food, "Groceries"⟩] : List Transaction) ≠ [] ∧
    (((monthly_expenses [⟨⟨2024, 1, 10⟩, 100, Category.Income, "Pay"⟩,
        ⟨⟨2024, 3, 5⟩, 200, Category.Food, "Groceries"⟩]).map Prod.fst).Pairwise (· < ·) ∧
      ∀ p ∈ monthly_expenses [⟨⟨2024, 1, 10⟩, 100, Category.Income, "Pay"⟩,
        ⟨⟨2024, 3, 5⟩, 200, Category.Food, "Groceries"⟩],
        p.2 = sumAmounts (List.filter (fun t => decide (monthIdx t.date = p.1))
          [⟨⟨2024, 1, 10⟩, 100, Category.Income, "Pay"⟩,
           ⟨⟨2024, 3, 5⟩, 200, Category.Food, "Groceries"⟩])) :=
  ⟨by simp,
    monthly_trend_spec
      [⟨⟨2024, 1, 10⟩, 100, Category.Income, "Pay"⟩,
       ⟨⟨2024, 3, 5⟩, 200, Category.Food, "Groceries"⟩] (by simp)⟩

/-- C10: Every calendar month lying between the months of two recorded
transactions gets a bucket in the monthly trend, and a month in that span with
no transactions gets total 0 (rather than being omitted). -/
theorem monthly_trend_dense (ts : List Transaction) (t1 t2 : Transaction)
    (h1 : t1 ∈ ts) (h2 : t2 ∈ ts) (m : Nat)
    (hm1 : monthIdx t1.date ≤ m) (hm2 : m ≤ monthIdx t2.date) :
    (m, bucketTotal ts m) ∈ monthly_expenses ts ∧
    ((∀ t ∈ ts, monthIdx t.date ≠ m) → bucketTotal ts m = 0) := by
  have hne : ts ≠ [] := List.ne_nil_of_mem h1
  have hlo : minMonth ts ≤ m := le_trans (minMonth_le_of_mem ts t1 h1) hm1
  have hhi : m ≤ maxMonth ts := le_trans hm2 (le_maxMonth_of_mem ts t2 h2)
  constructor
  · unfold monthly_expenses
    rw [if_neg hne]
    refine List.mem_map.mpr ⟨m - minMonth ts, List.mem_range.mpr (by omega), ?_⟩
    have : minMonth ts + (m - minMonth ts) = m := by omega
    rw [this]
  · intro hall
    have hfil : ts.filter (fun t => decide (monthIdx t.date = m)) = [] :=
      List.filter_eq_nil_iff.mpr (fun t ht => by simpa using hall t ht)
    simp [bucketTotal, hfil, sumAmounts]

/-- Witness for C10: the empty middle month 2024-02 of the two-transaction
collection appears as a bucket with total 0. -/
theorem monthly_trend_dense_witness :
    (⟨⟨2024, 1, 10⟩, 100, Category.Income, "Pay"⟩ ∈
      ([⟨⟨2024, 1, 10⟩, 100, Category.Income, "Pay"⟩,
        ⟨⟨2024, 3, 5⟩, 200, Category.Food, "Groceries"⟩] : List Transaction)) ∧
    (⟨⟨2024, 3, 5⟩, 200, Category.Food, "Groceries"⟩ ∈
      ([⟨⟨2024, 1, 10⟩, 100, Category.Income, "Pay"⟩,
        ⟨⟨2024, 3, 5⟩, 200, Category.Food, "Groceries"⟩] : List Transaction)) ∧
    monthIdx ⟨2024, 1, 10⟩ ≤ 24289 ∧ 24289 ≤ monthIdx ⟨2024, 3, 5⟩ ∧
    ((24289, bucketTotal [⟨⟨2024, 1, 10⟩, 100, Category.Income, "Pay"⟩,
        ⟨⟨2024, 3, 5⟩, 200, Category.Food, "Groceries"⟩] 24289) ∈
      monthly_expenses [⟨⟨2024, 1, 10⟩, 100, Category.Income, "Pay"⟩,
        ⟨⟨2024, 3, 5⟩, 200, Category.Food, "Groceries"⟩] ∧
      ((∀ t ∈ ([⟨⟨2024, 1, 10⟩, 100, Category.Income, "Pay"⟩,
          ⟨⟨2024, 3, 5⟩, 200, Category.Food, "Groceries"⟩] : List Transaction),
          monthIdx t.date ≠ 24289) →
        bucketTotal [⟨⟨2024, 1, 10⟩, 100, Category.Income, "Pay"⟩,
          ⟨⟨2024, 3, 5⟩, 200, Category.Food, "Groceries"⟩] 24289 = 0)) :=
  ⟨by simp, by simp, by decide, by decide,
    monthly_trend_dense
      [⟨⟨2024, 1, 10⟩, 100, Category.Income, "Pay"⟩,
       ⟨⟨2024, 3, 5⟩, 200, Category.Food, "Groceries"⟩]
      ⟨⟨2024, 1, 10⟩, 100, Category.Income, "Pay"⟩
      ⟨⟨2024, 3, 5⟩, 200, Category.Food, "Groceries"⟩
      (by simp) (by simp) 24289 (by decide) (by decide)⟩

/-- One row of the budget-vs-actual comparison table (app.py lines 185-190). -/
structure BudgetRow where
  category : Category
  budget : ℚ
  actual : ℚ
  remaining : ℚ
deriving DecidableEq, Repr

/-- The hardcoded default budget goals (app.py lines 142-150). -/
def defaultBudgetGoals : List (Category × ℚ) :=
  [(Category.Housing, 1000), (Category.Food, 500), (Category.Transportation, 200),
   (Category.Utilities, 300), (Category.Entertainment, 200),
   (Category.Healthcare, 300), (Category.Other, 200)]

/-- Embedding of `actual_spending.get(category, 0)` (app.py lines 178-184): restrict to
the current month, drop Income rows, group by category and sum, defaulting to
0 for a category with no matching rows.  The grouped sum for a key equals the
sum over the rows with that key, and an absent key yields the default 0, which
is also the sum over the (empty) matching rows, so both cases are this one
filtered sum. -/
def actualSpending (ts : List Transaction) (now : Nat) (c : Category) : ℚ :=
  sumAmounts (((ts.filter (fun t => monthIdx t.date = now)).filter
    (fun t => t.category ≠ Category.Income)).filter (fun t => t.category = c))

/-- The comparison table (app.py lines 182-192): one row per budgeted
category, in the order of the goal mapping. -/
def budgetComparison (ts : List Transaction) (goals : List (Category × ℚ))
    (now : Nat) : List BudgetRow :=
  goals.map (fun g =>
    { category := g.1, budget := g.2,
      actual := actualSpending ts now g.1,
      remaining := g.2 - actualSpending ts now g.1 })

/-- C5: Every budgeted category gets a row whose `actual` is the sum of
its non-Income current-month amounts and whose `remaining` is exactly
`budget - actual` (a rational subtraction, hence negative when overspent);
every emitted row satisfies `remaining = budget - actual`; and a budgeted
category with no current-month transactions has `actual = 0`. -/
theorem budget_comparison_spec (ts : List Transaction)
    (goals : List (Category × ℚ)) (now : Nat) (g : Category × ℚ)
    (hg : g ∈ goals) :
    ({ category := g.1, budget := g.2, actual := actualSpending ts now g.1,
       remaining := g.2 - actualSpending ts now g.1 } : BudgetRow) ∈
        budgetComparison ts goals now ∧
    (∀ row ∈ budgetComparison ts goals now,
        row.remaining = row.budget - row.actual ∧
        row.actual = actualSpending ts now row.category) ∧
    ((∀ t ∈ ts, monthIdx t.date = now → t.category ≠ g.1) →
        actualSpending ts now g.1 = 0) := by
  refine ⟨List.mem_map.mpr ⟨g, hg, rfl⟩, ?_, ?_⟩
  · intro row hrow
    rcases List.mem_map.mp hrow with ⟨g', _, hg'⟩
    rw [← hg']
    exact ⟨rfl, rfl⟩
  · intro hnone
    have hfil : ((ts.filter (fun t => monthIdx t.date = now)).filter
        (fun t => t.category ≠ Category.Income)).filter
          (fun t => t.category = g.1) = [] := by
      refine List.filter_eq_nil_iff.mpr (fun t ht => ?_)
      have h1 := List.mem_filter.mp ht
      have h2 := List.mem_filter.mp h1.1
      have hmem : t ∈ ts := h2.1
      have hmon : monthIdx t.date = now := by simpa using h2.2
      simpa using hnone t hmem hmon
    unfold actualSpending
    rw [hfil]
    rfl

/-- Witness for C5: default goals, one current-month Food expense. -/
theorem budget_comparison_spec_witness :
    ((Category.Food, (500 : ℚ)) ∈ defaultBudgetGoals) ∧
    (({ category := Category.Food, budget := 500,
        actual := actualSpending [⟨⟨2024, 3, 5⟩, 200, Category.Food, "Groceries"⟩]
          24290 Category.Food,
        remaining := 500 - actualSpending [⟨⟨2024, 3, 5⟩, 200, Category.Food, "Groceries"⟩]
          24290 Category.Food } : BudgetRow) ∈
        budgetComparison [⟨⟨2024, 3, 5⟩, 200, Category.Food, "Groceries"⟩]
          defaultBudgetGoals 24290 ∧
      (∀ row ∈ budgetComparison [⟨⟨2024, 3, 5⟩, 200, Category.Food, "Groceries"⟩]
          defaultBudgetGoals 24290,
        row.remaining = row.budget - row.actual ∧
        row.actual = actualSpending [⟨⟨2024, 3, 5⟩, 200, Category.Food, "Groceries"⟩]
          24290 row.category) ∧
      ((∀ t ∈ ([⟨⟨2024, 3, 5⟩, 200, Category.Food, "Groceries"⟩] : List Transaction),
          monthIdx t.date = 24290 → t.category ≠ Category.Food) →
        actualSpending [⟨⟨2024, 3, 5⟩, 200, Category.Food, "Groceries"⟩]
          24290 Category.Food = 0)) :=
  ⟨by simp [defaultBudgetGoals],
    budget_comparison_spec [⟨⟨2024, 3, 5⟩, 200, Category.Food, "Groceries"⟩]
      defaultBudgetGoals 24290 (Category.Food, 500)
      (by simp [defaultBudgetGoals])⟩

/-- The ordering used by `df.sort_values('date', ascending=False)` (app.py
line 65): descending by date. -/
def dateDesc (a b : Transaction) : Prop :=
  Date.le b.date a.date

instance : DecidableRel dateDesc := fun a b => by
  unfold dateDesc; infer_instance

instance : IsTotal Transaction dateDesc :=
  ⟨fun a b => (Date.le_total b.date a.date).imp id id⟩

instance : IsTrans Transaction dateDesc :=
  ⟨fun _ _ _ h1 h2 => Date.le_trans h2 h1⟩

/-- Sorting the records by date, newest first (app.py line 65). -/
def sortByDateDesc (ts : List Transaction) : List Transaction :=
  List.insertionSort dateDesc ts

/-- The optional category filter of the history view (app.py lines 81-82):
`'All'` (embedded as `none`) keeps every row, a selected category keeps the
rows of that category. -/
def afterCategoryFilter (cf : Option Category) (l : List Transaction) :
    List Transaction :=
  match cf with
  | none => l
  | some c => l.filter (fun t => t.category = c)

/-- The transaction-history query (`_render_transaction_history`, app.py
lines 56-92): on an empty collection an explicit no-data signal (`none`);
otherwise sort by date descending, apply the optional category filter, then
the inclusive date-range filter (lines 84-87). -/
def historyQuery (ts : List Transaction) (cf : Option Category)
    (startD endD : Date) : Option (List Transaction) :=
  if ts = [] then none
  else
    some ((afterCategoryFilter cf (sortByDateDesc ts)).filter
      (fun t => Date.le startD t.date ∧ Date.le t.date endD))

/-- The predicate that the row's category equals the selected one, when a
category is selected. -/
def matchesCategory (cf : Option Category) (t : Transaction) : Prop :=
  ∀ c, cf = some c → t.category = c

instance (cf : Option Category) (t : Transaction) :
    Decidable (matchesCategory cf t) :=
  match cf with
  | none => isTrue (by intro c hc; cases hc)
  | some c =>
      decidable_of_iff (t.category = c) (by
        unfold matchesCategory
        constructor
        · intro hc c' hc'; cases hc'; exact hc
        · intro hall; exact hall c rfl)

/-- C7: On the empty collection the history view gives an explicit
no-data signal; on a non-empty collection it returns exactly the records
matching the optional category filter and the inclusive date range, sorted by
date descending. -/
theorem history_spec (ts : List Transaction) (cf : Option Category)
    (startD endD : Date) :
    (ts = [] → historyQuery ts cf startD endD = none) ∧
    (ts ≠ [] → ∃ l, historyQuery ts cf startD endD = some l ∧
      l.Perm (ts.filter (fun t =>
        matchesCategory cf t ∧ Date.le startD t.date ∧ Date.le t.date endD)) ∧
      List.Sorted dateDesc l) := by
  constructor
  · intro h
    unfold historyQuery
    rw [if_pos h]
  · intro h
    unfold historyQuery
    rw [if_neg h]
    cases cf with
    | none =>
      refine ⟨_, rfl, ?_, ?_⟩
      · unfold afterCategoryFilter
        refine List.Perm.trans
          (List.Perm.filter _ (List.perm_insertionSort dateDesc ts))
          (List.Perm.of_eq (List.filter_congr ?_))
        intro t _
        by_cases h1 : Date.le startD t.date <;>
          by_cases h2 : Date.le t.date endD <;>
            simp [matchesCategory, h1, h2]
      · exact (List.sorted_insertionSort dateDesc ts).filter _
    | some c =>
      refine ⟨_, rfl, ?_, ?_⟩
      · unfold afterCategoryFilter
        rw [List.filter_filter]
        refine List.Perm.trans
          (List.Perm.filter _ (List.perm_insertionSort dateDesc ts))
          (List.Perm.of_eq (List.filter_congr ?_))
        intro t _
        by_cases h1 : Date.le startD t.date <;>
          by_cases h2 : Date.le t.date endD <;>
            by_cases h3 : t.category = c <;>
              simp [matchesCategory, h1, h2, h3]
      · exact ((List.sorted_insertionSort dateDesc ts).filter _).filter _

/-- Witness for C7: the empty collection signals no data; a singleton
collection inside the range is returned. -/
theorem history_spec_witness :
    historyQuery ([] : List Transaction) none ⟨2024, 1, 1⟩ ⟨2024, 12, 31⟩ = none ∧
    ∃ l, historyQuery [⟨⟨2024, 3, 5⟩, 200, Category.Food, "Groceries"⟩] none
        ⟨2024, 1, 1⟩ ⟨2024, 12, 31⟩ = some l ∧
      l.Perm (List.filter (fun t => decide (matchesCategory none t ∧
          Date.le ⟨2024, 1, 1⟩ t.date ∧ Date.le t.date ⟨2024, 12, 31⟩))
        [⟨⟨2024, 3, 5⟩, 200, Category.Food, "Groceries"⟩]) ∧
      List.Sorted dateDesc l :=
  ⟨(history_spec [] none ⟨2024, 1, 1⟩ ⟨2024, 12, 31⟩).1 rfl,
    (history_spec [⟨⟨2024, 3, 5⟩, 200, Category.Food, "Groceries"⟩] none
      ⟨2024, 1, 1⟩ ⟨2024, 12, 31⟩).2 (by simp)⟩

theorem reachable_records_valid (s : AppState) (h : Reachable s) :
    ∀ t ∈ s.transactions, validRecord t := by
  induction h with
  | init => intro t ht; cases ht
  | step s u _ ih =>
      intro t ht
      unfold add at ht
      by_cases hv : 0 < u.amount ∧ u.description ≠ ""
      · rw [if_pos hv] at ht
        rcases List.mem_append.mp ht with ht | ht
        · exact ih t ht
        · rw [List.mem_singleton.mp ht]; exact hv
      · rw [if_neg hv] at ht
        exact ih t ht
  | reload s hr ih =>
      intro t ht
      rw [reachable_file_sync s hr] at ht
      exact ih t ht

/-- C8: In every reachable state of the store, every stored record has a
positive amount, a non-empty description and a category from the fixed set;
an add either leaves the stored sequence unchanged or appends exactly the new
record at the end; and a reload (the only other operation touching the store)
leaves the stored sequence unchanged.  No update or delete operation is
modelled because none exists in the source. -/
theorem store_invariant (s : AppState) (h : Reachable s) :
    (∀ t ∈ s.transactions,
        0 < t.amount ∧ t.description ≠ "" ∧ t.category ∈ allCategories) ∧
    (∀ u : Transaction,
        (add s u).1.transactions = s.transactions ∨
        (add s u).1.transactions = s.transactions ++ [u]) ∧
    load_data s.file = s.transactions := by
  refine ⟨?_, ?_, reachable_file_sync s h⟩
  · intro t ht
    have hv := reachable_records_valid s h t ht
    exact ⟨hv.1, hv.2, mem_allCategories t.category⟩
  · intro u
    unfold add
    by_cases hv : 0 < u.amount ∧ u.description ≠ ""
    · rw [if_pos hv]; right; rfl
    · rw [if_neg hv]; left; rfl

/-- Witness for C8 at the reachable state holding one added record. -/
theorem store_invariant_witness :
    (∀ t ∈ (add ⟨[], none⟩ ⟨⟨2024, 3, 5⟩, 200, Category.Food, "Groceries"⟩).1.transactions,
        0 < t.amount ∧ t.description ≠ "" ∧ t.category ∈ allCategories) ∧
    (∀ u : Transaction,
        (add (add ⟨[], none⟩ ⟨⟨2024, 3, 5⟩, 200, Category.Food, "Groceries"⟩).1 u).1.transactions =
          (add ⟨[], none⟩ ⟨⟨2024, 3, 5⟩, 200, Category.Food, "Groceries"⟩).1.transactions ∨
        (add (add ⟨[], none⟩ ⟨⟨2024, 3, 5⟩, 200, Category.Food, "Groceries"⟩).1 u).1.transactions =
          (add ⟨[], none⟩ ⟨⟨2024, 3, 5⟩, 200, Category.Food, "Groceries"⟩).1.transactions ++ [u]) ∧
    load_data (add ⟨[], none⟩ ⟨⟨2024, 3, 5⟩, 200, Category.Food, "Groceries"⟩).1.file =
      (add ⟨[], none⟩ ⟨⟨2024, 3, 5⟩, 200, Category.Food, "Groceries"⟩).1.transactions :=
  store_invariant (add ⟨[], none⟩ ⟨⟨2024, 3, 5⟩, 200, Category.Food, "Groceries"⟩).1
    (Reachable.step ⟨[], none⟩ ⟨⟨2024, 3, 5⟩, 200, Category.Food, "Groceries"⟩ Reachable.init)
